import Mathlib

set_option maxHeartbeats 1000000
set_option maxRecDepth 100000

/- Shallow embedding of src/automotive/vehicle/tools/generate_annotation_enums.py.
   Python strings are modelled as lists of characters (PyStr); Python values that
   may be None are modelled as Option PyStr (None ↦ none); the empty string is
   falsy in Python, which the predicate truthy captures.  Python exceptions are
   modelled by an explicit error type threaded through Except. -/

abbrev PyStr := List Char

def isPySpace (c : Char) : Bool :=
  c = ' ' || c = '\t' || c = '\n' || c = '\r' || c = '\x0b' || c = '\x0c'

def dropSpaces (s : PyStr) : PyStr := s.dropWhile isPySpace

/- Python str.strip(): whitespace removed from both ends. -/
def pyStrip (s : PyStr) : PyStr :=
  ((s.dropWhile isPySpace).reverse.dropWhile isPySpace).reverse

def isWordChar (c : Char) : Bool := c.isAlphanum || c = '_'

def dropLit (lit s : PyStr) : Option PyStr :=
  if lit.isPrefixOf s then some (s.drop lit.length) else none

/- Python truthiness of an optional string: None and the empty string are falsy. -/
def truthy : Option PyStr → Bool
  | none => false
  | some s => !s.isEmpty

/- Python str.replace for a non-empty pattern: replaces every non-overlapping
   occurrence, scanning left to right.  The Nat fuel (instantiated with the
   string length, which always suffices because each step consumes at least one
   character) keeps the recursion structural so that it reduces definitionally. -/
def pyReplaceFuel (pat rep : PyStr) : Nat → PyStr → PyStr
  | _, [] => []
  | 0, s => s
  | fuel+1, c :: cs =>
    if pat ≠ [] ∧ pat.isPrefixOf (c :: cs) then
      rep ++ pyReplaceFuel pat rep fuel (List.drop pat.length (c :: cs))
    else c :: pyReplaceFuel pat rep fuel cs

def pyReplace (pat rep s : PyStr) : PyStr := pyReplaceFuel pat rep s.length s

/- Fixed literals from the source's regular expressions and templates. -/

def enumStartLit : PyStr := "enum VehicleProperty \x7b".data
def enumEndLit : PyStr := "\x7d;".data
def commentBeginLit : PyStr := "/*".data
def commentEndLit : PyStr := "*/".data
def cmTag : PyStr := "* @change_mode ".data
def accessTag : PyStr := "* @access ".data
def unitTag : PyStr := "* @unit ".data
def dataEnumTag : PyStr := "* @data_enum ".data
def versionTag : PyStr := "* @version ".data
def cmNS : PyStr := "VehiclePropertyChangeMode.".data
def accNS : PyStr := "VehiclePropertyAccess.".data
def invalidName : PyStr := "INVALID".data

/- RE_ENUM_START, RE_ENUM_END, RE_COMMENT_BEGIN, RE_COMMENT_END: re.match
   anchors at the start of the line, so each is "optional whitespace followed by
   the literal".  (The optional second star of RE_COMMENT_BEGIN does not affect
   whether the pattern matches.) -/
def reEnumStart (line : PyStr) : Bool := enumStartLit.isPrefixOf (dropSpaces line)

def reEnumEnd (line : PyStr) : Bool := enumEndLit.isPrefixOf (dropSpaces line)

def reCommentBegin (line : PyStr) : Bool := commentBeginLit.isPrefixOf (dropSpaces line)

def reCommentEnd (line : PyStr) : Bool := commentEndLit.isPrefixOf (dropSpaces line)

/- The annotation patterns '\s*\* @tag (\S+)\s*': optional whitespace, the
   literal tag text, then a non-empty maximal run of non-whitespace characters
   as group 1 (the trailing \s* always matches since re.match does not anchor
   the end). -/
def matchTag (tag line : PyStr) : Option PyStr :=
  match dropLit tag (dropSpaces line) with
  | none => none
  | some rest =>
    let tok := rest.takeWhile (fun c => !isPySpace c)
    if tok.isEmpty then none else some tok

/- RE_UNIT is '\s*\* @unit (\S+)\s+' — it additionally requires at least one
   whitespace character after the captured token. -/
def matchUnitTag (line : PyStr) : Option PyStr :=
  match dropLit unitTag (dropSpaces line) with
  | none => none
  | some rest =>
    let tok := rest.takeWhile (fun c => !isPySpace c)
    if tok.isEmpty then none
    else if (rest.drop tok.length).isEmpty then none
    else some tok

/- RE_VALUE is '\s*(\w+)\s*=(.*)': optional whitespace, a non-empty word-char
   run (group 1), optional whitespace, then '='. -/
def reValue (line : PyStr) : Option PyStr :=
  let s := dropSpaces line
  let w := s.takeWhile isWordChar
  if w.isEmpty then none
  else
    match dropSpaces (s.drop w.length) with
    | '=' :: _ => some w
    | _ => none

/- The PropertyConfig record, mirroring the Python class field for field. -/
structure PropertyConfig where
  name : Option PyStr := none
  description : Option PyStr := none
  comment : Option PyStr := none
  change_mode : Option PyStr := none
  access_modes : List PyStr := []
  enum_types : List PyStr := []
  unit_type : Option PyStr := none
  version : Option PyStr := none
  deriving DecidableEq

def initConfig : PropertyConfig := {}

/- Python exceptions raised while parsing.  dupVersion carries the string that
   the code interpolates into the message — the value of the local prop_name,
   which is the name of the most recently *declared* property.  unboundLocal is
   the UnboundLocalError raised when prop_name has never been assigned.
   attrError is the AttributeError from touching a field of config = None. -/
inductive PyErr where
  | dupVersion (name : PyStr)
  | unboundLocal
  | noChangeMode (name : PyStr)
  | noAccess (name : PyStr)
  | noVersion (name : PyStr)
  | attrError
  deriving DecidableEq

/- The property name carried by a parse error's message, if any. -/
def errName : PyErr → Option PyStr
  | .dupVersion n => some n
  | .noChangeMode n => some n
  | .noAccess n => some n
  | .noVersion n => some n
  | .unboundLocal => none
  | .attrError => none

/- Free-text handling of one stripped comment line (source lines 266-290):
   while config.description is falsy, a blank line finalises the description
   with the accumulator and a non-blank line extends the accumulator; once the
   description is truthy, non-blank lines extend config.comment (space-joined)
   and blank lines append a newline, except that blank lines arriving while the
   comment is still falsy are dropped. -/
def joinAcc (d s : PyStr) : PyStr := if d = [] then s else d ++ ' ' :: s

def textStep (cfg : PropertyConfig) (d : PyStr) (sline : PyStr) :
    PropertyConfig × PyStr :=
  if truthy cfg.description = false then
    if sline.isEmpty then ({ cfg with description := some d }, d)
    else (cfg, joinAcc d sline)
  else
    if truthy cfg.comment = false then
      if sline.isEmpty then (cfg, d)
      else ({ cfg with comment := some sline }, d)
    else
      if sline.isEmpty then ({ cfg with comment := some ((cfg.comment.getD []) ++ ['\n']) }, d)
      else ({ cfg with comment := some ((cfg.comment.getD []) ++ ' ' :: sline) }, d)

def textFold : List PyStr → PropertyConfig × PyStr → PropertyConfig × PyStr
  | [], s => s
  | l :: ls, s => textFold ls (textStep s.1 s.2 l)

/- Python: sline = line.strip(); if sline.startswith('*'): sline = sline[1:].strip(). -/
def stripStar (line : PyStr) : PyStr :=
  match pyStrip line with
  | '*' :: rest => pyStrip rest
  | s => s

/- One comment line (source lines 243-290): the annotation patterns are tried
   in the fixed priority order change_mode, access, unit, data_enum, version;
   the first match consumes the line; otherwise the line is free text. -/
def commentLineStep (pn : Option PyStr) (cfg : PropertyConfig) (d : PyStr)
    (line : PyStr) : Except PyErr (PropertyConfig × PyStr) :=
  match matchTag cmTag line with
  | some v => Except.ok ({ cfg with change_mode := some (pyReplace cmNS [] v) }, d)
  | none =>
  match matchTag accessTag line with
  | some v =>
      Except.ok ({ cfg with access_modes := cfg.access_modes ++ [pyReplace accNS [] v] }, d)
  | none =>
  match matchUnitTag line with
  | some v => Except.ok ({ cfg with unit_type := some v }, d)
  | none =>
  match matchTag dataEnumTag line with
  | some v => Except.ok ({ cfg with enum_types := cfg.enum_types ++ [v] }, d)
  | none =>
  match matchTag versionTag line with
  | some v =>
      if cfg.version.isSome then
        match pn with
        | some p => Except.error (PyErr.dupVersion p)
        | none => Except.error PyErr.unboundLocal
      else Except.ok ({ cfg with version := some v }, d)
  | none => Except.ok (textStep cfg d (stripStar line))

/- The parser state: the two scanner flags, the finished records, the record
   under construction (None before the first comment), the local description
   accumulator, and the local prop_name (None before its first assignment). -/
structure PState where
  processing : Bool
  in_comment : Bool
  configs : List PropertyConfig
  config : Option PropertyConfig
  description : PyStr
  prop_name : Option PyStr
  deriving DecidableEq

def initState : PState :=
  { processing := false, in_comment := false, configs := [], config := none,
    description := [], prop_name := none }

/- The enum-block flag update at the top of the loop body (if / elif). -/
def stepFlags (st : PState) (line : PyStr) : PState :=
  if reEnumStart line then { st with processing := true }
  else if reEnumEnd line then { st with processing := false }
  else st

def stepCommentFlag (st : PState) (line : PyStr) : PState :=
  if reCommentEnd line then { st with in_comment := false } else st

/- The enum-value declaration line (source lines 292-307): prop_name is
   assigned from group 1 first; INVALID is skipped with continue; otherwise the
   three mandatory fields are validated in order and the record is finalised. -/
def declLineStep (st : PState) (line : PyStr) : Except PyErr PState :=
  match reValue line with
  | none => Except.ok st
  | some w =>
    if w = invalidName then Except.ok { st with prop_name := some w }
    else
      match st.config with
      | none => Except.error PyErr.attrError
      | some cfg =>
        if truthy cfg.change_mode = false then Except.error (PyErr.noChangeMode w)
        else if cfg.access_modes = [] then Except.error (PyErr.noAccess w)
        else if truthy cfg.version = false then Except.error (PyErr.noVersion w)
        else
          Except.ok { st with
            prop_name := some w
            config := some { cfg with name := some w }
            configs := st.configs ++ [{ cfg with name := some w }] }

/- One iteration of the line loop of FileParser.parseFile (lines 227-307),
   preserving the source's control flow exactly: flag updates, the skip while
   outside the enum block, comment begin, comment end (which clears the flag
   and then falls through to the non-comment branch), the in-comment
   annotation/text processing, and the declaration branch. -/
def parseLine (st : PState) (line : PyStr) : Except PyErr PState :=
  let st1 := stepFlags st line
  if st1.processing = false then Except.ok st1
  else if reCommentBegin line then
    Except.ok { st1 with in_comment := true, config := some initConfig, description := [] }
  else
    let st2 := stepCommentFlag st1 line
    if st2.in_comment then
      match st2.config with
      | none => Except.error PyErr.attrError
      | some cfg =>
        match commentLineStep st2.prop_name cfg st2.description line with
        | Except.error e => Except.error e
        | Except.ok (cfg2, d2) =>
            Except.ok { st2 with config := some cfg2, description := d2 }
    else declLineStep st2 line

def runLines : PState → List PyStr → Except PyErr PState
  | st, [] => Except.ok st
  | st, l :: ls =>
    match parseLine st l with
    | Except.error e => Except.error e
    | Except.ok st1 => runLines st1 ls

/- FileParser.parseFile on the file's lines: the resulting config list, or the
   first exception raised. -/
def parseFile (lines : List PyStr) : Except PyErr (List PropertyConfig) :=
  match runLines initState lines with
  | Except.error e => Except.error e
  | Except.ok st => Except.ok st.configs

/- The convert method (source lines 311-359).  The Python local `annotation`
   persists across loop iterations: it is modelled as Option PyVal, where none
   means the variable is unbound (loading it raises NameError / its unbound
   variant).  A PyVal is a Python value that is either None or a string. -/

abbrev PyVal := Option PyStr

inductive CErr where
  | typeError
  | indexError
  | nameError
  | unknownField (f : PyStr)
  deriving DecidableEq

structure FileParser where
  configs : List PropertyConfig
  deriving DecidableEq

def TAB : PyStr := "    ".data

def LICENSE : PyStr := ("/*
 * Copyright (C) 2023 The Android Open Source Project
 *
 * Licensed under the Apache License, Version 2.0 (the \"License\");
 * you may not use this file except in compliance with the License.
 * You may obtain a copy of the License at
 *
 *      http://www.apache.org/licenses/LICENSE-2.0
 *
 * Unless required by applicable law or agreed to in writing, software
 * distributed under the License is distributed on an \"AS IS\" BASIS,
 * WITHOUT WARRANTIES OR CONDITIONS OF ANY KIND, either express or implied.
 * See the License for the specific language governing permissions and
 * limitations under the License.
 */

/**
 * DO NOT EDIT MANUALLY!!!
 *
 * Generated by tools/generate_annotation_enums.py.
 */

// clang-format off

").data

def cmFieldLit : PyStr := "change_mode".data
def accFieldLit : PyStr := "access_mode".data
def etFieldLit : PyStr := "enum_types".data
def utFieldLit : PyStr := "unit_type".data
def verFieldLit : PyStr := "version".data
def cmCpp : PyStr := "VehiclePropertyChangeMode::".data
def cmJava : PyStr := "VehiclePropertyChangeMode.".data
def accCpp : PyStr := "VehiclePropertyAccess::".data
def accJava : PyStr := "VehiclePropertyAccess.".data

/- The Java enum_types expression "List.of(A.class, B.class)". -/
def listOfExpr (ets : List PyStr) : PyStr :=
  ("List.of(".data) ++
    List.intercalate (", ".data) (ets.map (fun cn => cn ++ (".class".data))) ++
    (")".data)

/- The per-config field dispatch of convert: the value of the local
   `annotation` after the if/elif chain.  Except.ok none means the chain hit
   a `continue` (the config emits no line); Except.ok (some a2) means execution
   falls through to the line-emission code with `annotation` in state a2 (which
   is the incoming state when the source assigns nothing, i.e. enum_types and
   unit_type with cpp=True and version with cpp=False). -/
def annotAfter (cpp : Bool) (field : PyStr) (c : PropertyConfig)
    (annot : Option PyVal) : Except CErr (Option (Option PyVal)) :=
  if field = cmFieldLit then
    match c.change_mode with
    | none => Except.error CErr.typeError
    | some s => Except.ok (some (some (some ((if cpp then cmCpp else cmJava) ++ s))))
  else if field = accFieldLit then
    match c.access_modes with
    | [] => Except.error CErr.indexError
    | a :: _ => Except.ok (some (some (some ((if cpp then accCpp else accJava) ++ a))))
  else if field = etFieldLit then
    if c.enum_types.length < 1 then Except.ok none
    else if cpp then Except.ok (some annot)
    else Except.ok (some (some (some (listOfExpr c.enum_types))))
  else if field = utFieldLit then
    if truthy c.unit_type = false then Except.ok none
    else if cpp then Except.ok (some annot)
    else Except.ok (some (some c.unit_type))
  else if field = verFieldLit then
    if cpp then Except.ok (some (some c.version))
    else Except.ok (some annot)
  else Except.error (CErr.unknownField field)

/- One emitted line, with its trailing comma separator in both styles. -/
def lineFor (cpp : Bool) (n a : PyStr) : PyStr :=
  if cpp then
    TAB ++ TAB ++ ("\x7bVehicleProperty::".data) ++ n ++ (", ".data) ++ a ++ ("\x7d,".data)
  else
    TAB ++ TAB ++ ("Map.entry(VehicleProperty.".data) ++ n ++ (", ".data) ++ a ++ ("),".data)

/- The loop of convert.  The line expression concatenates config.name before
   loading `annotation`, so a None name raises TypeError first, then an unbound
   annotation raises the NameError variant, then a None annotation raises
   TypeError. -/
def convertLoop (cpp : Bool) (field : PyStr) :
    List PropertyConfig → Nat → PyStr → Option PyVal → Except CErr PyStr
  | [], _, content, _ => Except.ok content
  | c :: cs, counter, content, annot =>
    match annotAfter cpp field c annot with
    | Except.error e => Except.error e
    | Except.ok none => convertLoop cpp field cs counter content annot
    | Except.ok (some a2) =>
      match c.name with
      | none => Except.error CErr.typeError
      | some n =>
        match a2 with
        | none => Except.error CErr.nameError
        | some none => Except.error CErr.typeError
        | some (some a) =>
          convertLoop cpp field cs (counter + 1)
            (content ++ (if counter = 0 then [] else ['\n']) ++ lineFor cpp n a) a2

/- FileParser.convert, returning the output text: content starts as
   LICENSE + header, gains the emitted lines with '\n' prepended to every line
   but the first, loses its final character for the Java style (content[:-1]),
   then gains the footer. -/
def FileParser.convert (p : FileParser) (header footer : PyStr) (cpp : Bool)
    (field : PyStr) : Except CErr PyStr :=
  match convertLoop cpp field p.configs 0 (LICENSE ++ header) none with
  | Except.error e => Except.error e
  | Except.ok content =>
      Except.ok ((if cpp then content else content.dropLast) ++ footer)

/- outputAsCsv (source lines 361-387).  Python's '{}'.format prints None as
   the text "None"; description is the only field whose .replace call can hit
   None (an AttributeError), because comment is defaulted to '' first. -/
def pyFmt : Option PyStr → PyStr
  | none => "None".data
  | some s => s

def csvHeader : PyStr :=
  "name,description,change mode,access mode,enum type,unit type,comment\n".data

def dq : PyStr := ['"']
def ddq : PyStr := ['"', '"']

def csvRow (c : PropertyConfig) : Except PyErr PyStr :=
  match c.description with
  | none => Except.error PyErr.attrError
  | some d =>
    let et := if c.enum_types = [] then ['/'] else List.intercalate ['/'] c.enum_types
    let ut := if truthy c.unit_type = false then ['/'] else c.unit_type.getD []
    let cmt := if truthy c.comment = false then [] else c.comment.getD []
    Except.ok (['"'] ++ pyFmt c.name ++ ("\",\"".data) ++ pyReplace dq ddq d ++
      ("\",\"".data) ++ pyFmt c.change_mode ++ ("\",\"".data) ++
      List.intercalate ['/'] c.access_modes ++ ("\",\"".data) ++ et ++
      ("\",\"".data) ++ ut ++ ("\", \"".data) ++ pyReplace dq ddq cmt ++ ("\"\n".data))

def csvLoop : List PropertyConfig → PyStr → Except PyErr PyStr
  | [], content => Except.ok content
  | c :: cs, content =>
    match csvRow c with
    | Except.error e => Except.error e
    | Except.ok r => csvLoop cs (content ++ r)

def FileParser.outputAsCsv (p : FileParser) : Except PyErr PyStr :=
  csvLoop p.configs csvHeader

/- Decidable equality for Except values, used to evaluate the embedding at
   concrete inputs. -/
instance {e a : Type} [DecidableEq e] [DecidableEq a] : DecidableEq (Except e a)
  | Except.error u, Except.error v =>
    if h : u = v then Decidable.isTrue (h ▸ rfl)
    else Decidable.isFalse (fun hh => h (Except.error.inj hh))
  | Except.error _, Except.ok _ => Decidable.isFalse (fun hh => Except.noConfusion hh)
  | Except.ok _, Except.error _ => Decidable.isFalse (fun hh => Except.noConfusion hh)
  | Except.ok u, Except.ok v =>
    if h : u = v then Decidable.isTrue (h ▸ rfl)
    else Decidable.isFalse (fun hh => h (Except.ok.inj hh))

/- Specification-side descriptions of the scanner's free-text handling.
   joinFrom d ls extends the accumulator d with the lines ls, space-joined. -/
def joinFrom (d : PyStr) (ls : List PyStr) : PyStr := ls.foldl joinAcc d

def joinSpace : List PyStr → PyStr
  | [] => []
  | s :: ts => joinFrom s ts

/- Amended description semantics: skip blank lines, accumulate the following
   non-blank lines, and finalise at the first blank line that follows at least
   one non-blank line.  If no such blank line occurs the description keeps its
   starting value (base), except that it becomes the empty string when at least
   one leading blank line was seen. -/
def descFrom (base : Option PyStr) (ls : List PyStr) : Option PyStr :=
  let l1 := ls.dropWhile (fun s => s.isEmpty)
  let text := l1.takeWhile (fun s => !s.isEmpty)
  if text.length < l1.length then some (joinSpace text)
  else if l1.length < ls.length then some [] else base

def descOfLines (ls : List PyStr) : Option PyStr := descFrom none ls

/- The claim's literal description semantics: the non-blank lines preceding the
   first blank comment line, space-joined. -/
def descOfLinesLiteral (ls : List PyStr) : Option PyStr :=
  some (joinSpace (ls.takeWhile (fun s => !s.isEmpty)))

/- Amended comment semantics: blank lines before the first non-blank comment
   line are dropped; afterwards a blank line appends a newline and a non-blank
   line is appended with a single space separator. -/
def commentJoin (acc s : PyStr) : PyStr :=
  if s.isEmpty then acc ++ ['\n'] else acc ++ ' ' :: s

def commentOfLines (ls : List PyStr) : Option PyStr :=
  match ls.dropWhile (fun s => s.isEmpty) with
  | [] => none
  | s :: rest => some (rest.foldl commentJoin s)

/- The claim's literal comment semantics: every blank line becomes a newline,
   every non-blank line is space-joined. -/
def commentOfLinesLiteral (ls : List PyStr) : PyStr :=
  ls.foldl (fun acc s => if s.isEmpty then acc ++ ['\n'] else joinAcc acc s) []

/- Specification-side description of convert's emission.  wfConfig is the
   well-formedness that parseFile guarantees for every record it returns. -/
def wfConfig (c : PropertyConfig) : Prop :=
  c.name.isSome ∧ c.change_mode.isSome ∧ c.access_modes ≠ [] ∧ c.version.isSome

instance (c : PropertyConfig) : Decidable (wfConfig c) := by
  unfold wfConfig
  infer_instance

/- The field/style combinations for which the source assigns the annotation
   variable (the other combinations read a stale or unbound local). -/
def supportedField (field : PyStr) (cpp : Bool) : Prop :=
  field = cmFieldLit ∨ field = accFieldLit ∨
  (field = etFieldLit ∧ cpp = false) ∨ (field = utFieldLit ∧ cpp = false) ∨
  (field = verFieldLit ∧ cpp = true)

instance (field : PyStr) (cpp : Bool) : Decidable (supportedField field cpp) := by
  unfold supportedField
  infer_instance

/- The annotation text a qualifying config renders, none when the config is
   skipped (empty enum_types, falsy unit_type). -/
def annotValue (cpp : Bool) (field : PyStr) (c : PropertyConfig) : Option PyStr :=
  if field = cmFieldLit then some ((if cpp then cmCpp else cmJava) ++ c.change_mode.getD [])
  else if field = accFieldLit then
    some ((if cpp then accCpp else accJava) ++ c.access_modes.headD [])
  else if field = etFieldLit then
    if c.enum_types = [] then none else some (listOfExpr c.enum_types)
  else if field = utFieldLit then
    if truthy c.unit_type = false then none else some (c.unit_type.getD [])
  else some (c.version.getD [])

def linesOf (cpp : Bool) (field : PyStr) (cs : List PropertyConfig) : List PyStr :=
  cs.filterMap (fun c => (annotValue cpp field c).map (lineFor cpp (c.name.getD [])))

/- The body text built by convert's loop: every line but the first is preceded
   by a newline. -/
def joinLines : List PyStr → PyStr
  | [] => []
  | l :: ls => l ++ (ls.map (fun x => '\n' :: x)).flatten

/- Intermediate closed form of convert's loop accumulator. -/
def appendLines : Nat → PyStr → List PyStr → PyStr
  | _, content, [] => content
  | counter, content, l :: ls =>
    appendLines (counter + 1) (content ++ (if counter = 0 then [] else ['\n']) ++ l) ls

/- Keeping only the first declared access mode of a record. -/
def truncAccess (c : PropertyConfig) : PropertyConfig :=
  { c with access_modes := c.access_modes.take 1 }

/- Quote escaping as the spec words it: each double quote doubled. -/
def escQuote (s : PyStr) : PyStr :=
  s.flatMap (fun c => if c = '"' then ['"', '"'] else [c])

/- The CSV row as the amended claim words it: fields in order name,
   description, change mode, slash-joined access modes, slash-joined enum types
   (placeholder '/' when empty), unit type (placeholder '/' when absent), and
   comment; only description and comment are quote-escaped. -/
def csvRowSpec (c : PropertyConfig) : PyStr :=
  ['"'] ++ pyFmt c.name ++ ("\",\"".data) ++ escQuote (c.description.getD []) ++
  ("\",\"".data) ++ pyFmt c.change_mode ++ ("\",\"".data) ++
  List.intercalate ['/'] c.access_modes ++ ("\",\"".data) ++
  (if c.enum_types = [] then ['/'] else List.intercalate ['/'] c.enum_types) ++
  ("\",\"".data) ++ (if truthy c.unit_type = false then ['/'] else c.unit_type.getD []) ++
  ("\", \"".data) ++ escQuote (if truthy c.comment = false then [] else c.comment.getD []) ++
  ("\"\n".data)

def csvExportSpec (cs : List PropertyConfig) : PyStr :=
  csvHeader ++ (cs.map csvRowSpec).flatten

/- The CSV row as the claim literally words it: every field quote-escaped. -/
def csvRowSpecAll (c : PropertyConfig) : PyStr :=
  ['"'] ++ escQuote (pyFmt c.name) ++ ("\",\"".data) ++ escQuote (c.description.getD []) ++
  ("\",\"".data) ++ escQuote (pyFmt c.change_mode) ++ ("\",\"".data) ++
  escQuote (List.intercalate ['/'] c.access_modes) ++ ("\",\"".data) ++
  escQuote (if c.enum_types = [] then ['/'] else List.intercalate ['/'] c.enum_types) ++
  ("\",\"".data) ++ escQuote (if truthy c.unit_type = false then ['/'] else c.unit_type.getD []) ++
  ("\", \"".data) ++ escQuote (if truthy c.comment = false then [] else c.comment.getD []) ++
  ("\"\n".data)

/- Concrete inputs and expected values used by witnesses and counterexamples. -/

def fooCfg : PropertyConfig :=
  { name := some ("FOO".data), description := some ("Example prop.".data),
    change_mode := some ("STATIC".data), access_modes := ["READ".data],
    version := some ("2".data) }

def demoGood : List PyStr :=
  [("enum VehicleProperty \x7b".data),
   ("    /**".data),
   ("     * Example prop.".data),
   ("     *".data),
   ("     * @change_mode VehiclePropertyChangeMode.STATIC".data),
   ("     * @access VehiclePropertyAccess.READ".data),
   ("     * @version 2".data),
   ("     */".data),
   ("    FOO = 1,".data),
   ("\x7d;".data)]

/- A first property whose comment holds two @version annotations. -/
def demoDupFirst : List PyStr :=
  [("enum VehicleProperty \x7b".data),
   ("    /**".data),
   ("     * @version 1".data),
   ("     * @version 2".data)]

/- A second property whose comment holds two @version annotations, after a
   first property FOO was declared. -/
def demoDupSecond : List PyStr :=
  [("enum VehicleProperty \x7b".data),
   ("    /**".data),
   ("     * @change_mode VehiclePropertyChangeMode.S".data),
   ("     * @access VehiclePropertyAccess.R".data),
   ("     * @version 1".data),
   ("     */".data),
   ("    FOO = 1,".data),
   ("    /**".data),
   ("     * @version 1".data),
   ("     * @version 2".data)]

/- A comment carrying only an @access annotation, then the declaration line. -/
def accOnlyCfg : PropertyConfig := { access_modes := ["READ".data] }

def pre2 : List PyStr :=
  [("enum VehicleProperty \x7b".data),
   ("    /**".data),
   ("     * @access VehiclePropertyAccess.READ".data),
   ("     */".data)]

def line2 : PyStr := "    FOO = 1,".data

def st2demo : PState :=
  { processing := true, in_comment := false, configs := [], config := some accOnlyCfg,
    description := [], prop_name := none }

/- A comment followed by both an INVALID and a FOO declaration line: the FOO
   record reuses the record construction that INVALID left behind. -/
def invCfg : PropertyConfig :=
  { change_mode := some ("X".data), access_modes := ["R".data], version := some ("1".data) }

def preInv : List PyStr :=
  [("enum VehicleProperty \x7b".data),
   ("/**".data),
   (" * @change_mode VehiclePropertyChangeMode.X".data),
   (" * @access VehiclePropertyAccess.R".data),
   (" * @version 1".data),
   (" */".data),
   (" INVALID = 0,".data)]

def stAfterInv : PState :=
  { processing := true, in_comment := false, configs := [], config := some invCfg,
    description := [], prop_name := some invalidName }

def demoInvalidReuse : List PyStr :=
  preInv ++ [(" FOO = 1,".data), ("\x7d;".data)]

def lineInv : PyStr := "    INVALID = 0,".data

/- A doc comment whose text is preceded by a blank comment line. -/
def c5Cfg : PropertyConfig :=
  { name := some ("FOO".data), description := some ("A".data),
    change_mode := some ("S".data), access_modes := ["R".data],
    version := some ("1".data) }

def demoC5 : List PyStr :=
  [("enum VehicleProperty \x7b".data),
   ("/**".data),
   (" *".data),
   (" * A".data),
   (" *".data),
   (" * @change_mode VehiclePropertyChangeMode.S".data),
   (" * @access VehiclePropertyAccess.R".data),
   (" * @version 1".data),
   (" */".data),
   (" FOO = 1,".data),
   ("\x7d;".data)]

/- Stripped free-text lines: description, its finalising blank line, then a
   comment region that begins with a blank line. -/
def demoC6 : List PyStr := [("D".data), [], [], ("X".data)]

def descOnlyCfg : PropertyConfig := { initConfig with description := some ("D".data) }

/- A record whose change mode contains a double quote. -/
def quoteCfg : PropertyConfig :=
  { name := some ("P".data), description := some [],
    change_mode := some ['A', '"', 'B'], access_modes := ["R".data],
    version := some ("1".data) }

/- A record declaring two access modes. -/
def c10Cfg : PropertyConfig :=
  { name := some ("P".data), description := some [],
    change_mode := some ("C".data), access_modes := ["READ".data, "WRITE".data],
    version := some ("1".data) }

/- Structural lemmas about the scanner step. -/

lemma stepFlags_configs (st : PState) (line : PyStr) :
    (stepFlags st line).configs = st.configs := by
  unfold stepFlags
  split
  · rfl
  · split <;> rfl

lemma stepFlags_no (st : PState) (line : PyStr)
    (h1 : reEnumStart line = false) (h2 : reEnumEnd line = false) :
    stepFlags st line = st := by
  simp [stepFlags, h1, h2]

lemma stepCommentFlag_configs (st : PState) (line : PyStr) :
    (stepCommentFlag st line).configs = st.configs := by
  unfold stepCommentFlag
  split <;> rfl

lemma stepCommentFlag_no (st : PState) (line : PyStr)
    (h : reCommentEnd line = false) :
    stepCommentFlag st line = st := by
  simp [stepCommentFlag, h]

/- On a line that matches none of the block or comment patterns, while inside
   the enum block and outside a comment, parseLine is the declaration step. -/
lemma parseLine_decl_path (st : PState) (line : PyStr)
    (hp : st.processing = true) (hc : st.in_comment = false)
    (h1 : reEnumStart line = false) (h2 : reEnumEnd line = false)
    (h3 : reCommentBegin line = false) (h4 : reCommentEnd line = false) :
    parseLine st line = declLineStep st line := by
  simp only [parseLine, stepFlags_no st line h1 h2, stepCommentFlag_no st line h4, hp, h3, hc]
  simp

/- A declaration line reached with a missing mandatory field produces the
   corresponding error, which carries the entry's own name. -/
lemma declLineStep_missing (st : PState) (line w : PyStr) (cfg : PropertyConfig)
    (hv : reValue line = some w) (hw : ¬ w = invalidName) (hcfg : st.config = some cfg)
    (hmiss : truthy cfg.change_mode = false ∨ cfg.access_modes = [] ∨
      truthy cfg.version = false) :
    ∃ e, declLineStep st line = Except.error e ∧ errName e = some w := by
  unfold declLineStep
  rw [hv]
  simp only [hcfg, if_neg hw]
  by_cases hcm : truthy cfg.change_mode = false
  · exact ⟨PyErr.noChangeMode w, by rw [if_pos hcm], rfl⟩
  · rw [if_neg hcm]
    by_cases hac : cfg.access_modes = []
    · exact ⟨PyErr.noAccess w, by rw [if_pos hac], rfl⟩
    · rw [if_neg hac]
      by_cases hvr : truthy cfg.version = false
      · exact ⟨PyErr.noVersion w, by rw [if_pos hvr], rfl⟩
      · rcases hmiss with h | h | h
        · exact absurd h hcm
        · exact absurd h hac
        · exact absurd h hvr

/- The INVALID sentinel: the declaration step only records the prop_name. -/
lemma declLineStep_invalid (st : PState) (line : PyStr)
    (hv : reValue line = some invalidName) :
    declLineStep st line = Except.ok { st with prop_name := some invalidName } := by
  unfold declLineStep
  rw [hv]
  simp

/- How the declaration step can change the configs list: it either leaves it
   unchanged, or appends exactly one record that passed the three mandatory
   checks and is named by a non-INVALID identifier. -/
lemma declLineStep_configs (st : PState) (line : PyStr) (st' : PState)
    (h : declLineStep st line = Except.ok st') :
    st'.configs = st.configs ∨
    ∃ (cfg : PropertyConfig) (w : PyStr),
      truthy cfg.change_mode = true ∧ cfg.access_modes ≠ [] ∧
      truthy cfg.version = true ∧ ¬ w = invalidName ∧
      st'.configs = st.configs ++ [{ cfg with name := some w }] := by
  unfold declLineStep at h
  split at h
  · injection h with h
    rw [← h]
    exact Or.inl rfl
  · rename_i w hv
    split at h
    · injection h with h
      rw [← h]
      exact Or.inl rfl
    · rename_i hw
      split at h
      · cases h
      · rename_i cfg hcfg
        split at h
        · cases h
        · split at h
          · cases h
          · split at h
            · cases h
            · rename_i hcm hac hvr
              injection h with h
              refine Or.inr ⟨cfg, w, ?_, hac, ?_, hw, ?_⟩
              · cases hb : truthy cfg.change_mode
                · exact absurd hb hcm
                · rfl
              · cases hb : truthy cfg.version
                · exact absurd hb hvr
                · rfl
              · rw [← h]

lemma parseLine_configs (st : PState) (line : PyStr) (st' : PState)
    (h : parseLine st line = Except.ok st') :
    st'.configs = st.configs ∨
    ∃ (cfg : PropertyConfig) (w : PyStr),
      truthy cfg.change_mode = true ∧ cfg.access_modes ≠ [] ∧
      truthy cfg.version = true ∧ ¬ w = invalidName ∧
      st'.configs = st.configs ++ [{ cfg with name := some w }] := by
  simp only [parseLine] at h
  split at h
  · injection h with h
    rw [← h]
    exact Or.inl (stepFlags_configs st line)
  · split at h
    · injection h with h
      rw [← h]
      exact Or.inl (stepFlags_configs st line)
    · split at h
      · split at h
        · cases h
        · split at h
          · cases h
          · rename_i cfg hcfg pr hcl
            injection h with h
            rw [← h]
            refine Or.inl ?_
            show (stepCommentFlag (stepFlags st line) line).configs = st.configs
            rw [stepCommentFlag_configs, stepFlags_configs]
      · rcases declLineStep_configs _ line st' h with heq | ⟨cfg, w, h1, h2, h3, h4, heq⟩
        · rw [stepCommentFlag_configs, stepFlags_configs] at heq
          exact Or.inl heq
        · rw [stepCommentFlag_configs, stepFlags_configs] at heq
          exact Or.inr ⟨cfg, w, h1, h2, h3, h4, heq⟩

/- runLines distributes over list append. -/
lemma runLines_append (as : List PyStr) : ∀ (st : PState) (bs : List PyStr),
    runLines st (as ++ bs) =
      match runLines st as with
      | Except.error e => Except.error e
      | Except.ok st1 => runLines st1 bs := by
  induction as with
  | nil => intro st bs; rfl
  | cons a as ih =>
    intro st bs
    show (match parseLine st a with
      | Except.error e => Except.error e
      | Except.ok st1 => runLines st1 (as ++ bs)) =
      match (match parseLine st a with
        | Except.error e => Except.error e
        | Except.ok st1 => runLines st1 as) with
      | Except.error e => Except.error e
      | Except.ok st1 => runLines st1 bs
    cases parseLine st a with
    | error e => rfl
    | ok st1 => exact ih st1 bs

/- Every record in the final state satisfies any property preserved by the
   finalisation step. -/
lemma runLines_inv (P : PropertyConfig → Prop)
    (hP : ∀ (cfg : PropertyConfig) (w : PyStr),
      truthy cfg.change_mode = true → cfg.access_modes ≠ [] →
      truthy cfg.version = true → ¬ w = invalidName → P { cfg with name := some w }) :
    ∀ (lines : List PyStr) (st st' : PState),
      runLines st lines = Except.ok st' → (∀ c ∈ st.configs, P c) →
      ∀ c ∈ st'.configs, P c := by
  intro lines
  induction lines with
  | nil =>
    intro st st' h hs
    injection h with h
    rw [← h]
    exact hs
  | cons l ls ih =>
    intro st st' h hs
    unfold runLines at h
    cases hpl : parseLine st l with
    | error e => rw [hpl] at h; cases h
    | ok st1 =>
      rw [hpl] at h
      apply ih st1 st' h
      rcases parseLine_configs st l st1 hpl with heq | ⟨cfg, w, h1, h2, h3, h4, heq⟩
      · rw [heq]; exact hs
      · rw [heq]
        intro c hcmem
        rcases List.mem_append.mp hcmem with hcm | hcm
        · exact hs c hcm
        · rw [List.mem_singleton.mp hcm]
          exact hP cfg w h1 h2 h3 h4

/- Text-accumulation lemmas for the description and comment fields. -/

lemma len_dropWhile_le {α : Type} (p : α → Bool) (l : List α) :
    (l.dropWhile p).length ≤ l.length := by
  induction l with
  | nil => simp
  | cons a l ih =>
    by_cases h : p a
    · rw [List.dropWhile_cons_of_pos h]
      exact Nat.le_succ_of_le ih
    · rw [List.dropWhile_cons_of_neg h]

lemma textStep_of_desc_truthy (cfg : PropertyConfig) (d sline : PyStr)
    (h : truthy cfg.description = true) :
    textStep cfg d sline =
      if truthy cfg.comment = false then
        (if sline.isEmpty then (cfg, d) else ({ cfg with comment := some sline }, d))
      else ({ cfg with comment := some (commentJoin (cfg.comment.getD []) sline) }, d) := by
  unfold textStep commentJoin
  rw [h]
  by_cases hs : sline.isEmpty <;> simp [hs]

lemma textStep_desc_keep (cfg : PropertyConfig) (d sline : PyStr)
    (h : truthy cfg.description = true) :
    (textStep cfg d sline).1.description = cfg.description ∧
    (textStep cfg d sline).2 = d := by
  rw [textStep_of_desc_truthy cfg d sline h]
  split
  · split <;> exact ⟨rfl, rfl⟩
  · exact ⟨rfl, rfl⟩

lemma textFold_desc_frozen (ls : List PyStr) :
    ∀ (cfg : PropertyConfig) (d : PyStr), truthy cfg.description = true →
    (textFold ls (cfg, d)).1.description = cfg.description := by
  induction ls with
  | nil => intro cfg d _; rfl
  | cons l ls ih =>
    intro cfg d h
    show (textFold ls (textStep cfg d l)).1.description = cfg.description
    rcases hts : textStep cfg d l with ⟨cfg2, d2⟩
    obtain ⟨hd, _⟩ := textStep_desc_keep cfg d l h
    rw [hts] at hd
    rw [← hd]
    exact ih cfg2 d2 (by rw [hd]; exact h)

lemma joinAcc_ne_nil (d s : PyStr) (hd : d ≠ []) : joinAcc d s ≠ [] := by
  simp [joinAcc, hd]

lemma textFold_desc_acc (ls : List PyStr) :
    ∀ (cfg : PropertyConfig) (d : PyStr),
      truthy cfg.description = false → d ≠ [] →
    (textFold ls (cfg, d)).1.description =
      if ls.dropWhile (fun s => !s.isEmpty) = [] then cfg.description
      else some (joinFrom d (ls.takeWhile (fun s => !s.isEmpty))) := by
  induction ls with
  | nil => intro cfg d _ _; simp [textFold]
  | cons l ls ih =>
    intro cfg d h hd
    show (textFold ls (textStep cfg d l)).1.description = _
    by_cases hl : l.isEmpty
    · have hts : textStep cfg d l = ({ cfg with description := some d }, d) := by
        simp [textStep, h, hl]
      rw [hts]
      rw [textFold_desc_frozen ls _ d (by simp [truthy, hd])]
      have hdw : (l :: ls).dropWhile (fun s => !s.isEmpty) = l :: ls :=
        List.dropWhile_cons_of_neg (by simp [hl])
      have htw : (l :: ls).takeWhile (fun s => !s.isEmpty) = [] :=
        List.takeWhile_cons_of_neg (by simp [hl])
      rw [hdw, htw]
      simp [joinFrom]
    · have hts : textStep cfg d l = (cfg, joinAcc d l) := by
        simp [textStep, h, hl]
      rw [hts]
      rw [ih cfg (joinAcc d l) h (joinAcc_ne_nil d l hd)]
      have hdw : (l :: ls).dropWhile (fun s => !s.isEmpty) =
          ls.dropWhile (fun s => !s.isEmpty) :=
        List.dropWhile_cons_of_pos (by simp [hl])
      have htw : (l :: ls).takeWhile (fun s => !s.isEmpty) =
          l :: ls.takeWhile (fun s => !s.isEmpty) :=
        List.takeWhile_cons_of_pos (by simp [hl])
      rw [hdw, htw]
      rfl

lemma descFrom_blank_cons (base : Option PyStr) (l : PyStr) (ls : List PyStr)
    (hl : l.isEmpty) :
    descFrom base (l :: ls) = descFrom (some []) ls := by
  unfold descFrom
  have hdw : (l :: ls).dropWhile (fun s => s.isEmpty) =
      ls.dropWhile (fun s => s.isEmpty) :=
    List.dropWhile_cons_of_pos hl
  rw [hdw]
  by_cases h1 : ((ls.dropWhile (fun s => s.isEmpty)).takeWhile (fun s => !s.isEmpty)).length <
      (ls.dropWhile (fun s => s.isEmpty)).length
  · rw [if_pos h1, if_pos h1]
  · rw [if_neg h1, if_neg h1]
    have hle := len_dropWhile_le (fun s : PyStr => s.isEmpty) ls
    rw [if_pos (by simp; omega)]
    by_cases h2 : (ls.dropWhile (fun s => s.isEmpty)).length < ls.length
    · rw [if_pos h2]
    · rw [if_neg h2]

lemma textFold_desc_start (ls : List PyStr) :
    ∀ (cfg : PropertyConfig), truthy cfg.description = false →
    (textFold ls (cfg, [])).1.description = descFrom cfg.description ls := by
  induction ls with
  | nil => intro cfg _; simp [textFold, descFrom]
  | cons l ls ih =>
    intro cfg h
    show (textFold ls (textStep cfg [] l)).1.description = _
    by_cases hl : l.isEmpty
    · have hts : textStep cfg [] l = ({ cfg with description := some [] }, []) := by
        simp [textStep, h, hl]
      rw [hts, ih _ (by simp [truthy]), descFrom_blank_cons cfg.description l ls hl]
    · have hts : textStep cfg [] l = (cfg, l) := by
        simp [textStep, h, hl, joinAcc]
      rw [hts]
      rw [textFold_desc_acc ls cfg l h (by simp at hl; exact hl)]
      have hsplit : (ls.takeWhile (fun s => !s.isEmpty)).length +
          (ls.dropWhile (fun s => !s.isEmpty)).length = ls.length := by
        rw [← List.length_append, List.takeWhile_append_dropWhile]
      simp only [descFrom]
      have hdw : (l :: ls).dropWhile (fun s => s.isEmpty) = l :: ls :=
        List.dropWhile_cons_of_neg (by simp [hl])
      have htw : (l :: ls).takeWhile (fun s => !s.isEmpty) =
          l :: ls.takeWhile (fun s => !s.isEmpty) :=
        List.takeWhile_cons_of_pos (by simp [hl])
      rw [hdw]
      rw [htw]
      by_cases h2 : ls.dropWhile (fun s => !s.isEmpty) = []
      · rw [if_pos h2]
        have hlen : (ls.takeWhile (fun s => !s.isEmpty)).length = ls.length := by
          rw [h2] at hsplit; simpa using hsplit
        rw [if_neg (by simp [hlen])]
        rw [if_neg (by simp)]
      · rw [if_neg h2]
        have hlen : (ls.takeWhile (fun s => !s.isEmpty)).length < ls.length := by
          have : 0 < (ls.dropWhile (fun s => !s.isEmpty)).length :=
            List.length_pos.mpr h2
          omega
        rw [if_pos (by simp [hlen])]
        rfl

/- Comment-accumulation lemmas. -/

lemma commentJoin_ne_nil (t s : PyStr) : commentJoin t s ≠ [] := by
  unfold commentJoin
  split <;> simp

lemma textFold_comment_acc (ls : List PyStr) :
    ∀ (cfg : PropertyConfig) (d t : PyStr),
      truthy cfg.description = true → cfg.comment = some t → t ≠ [] →
    (textFold ls (cfg, d)).1.comment = some (ls.foldl commentJoin t) := by
  induction ls with
  | nil => intro cfg d t _ hc _; simpa using hc
  | cons l ls ih =>
    intro cfg d t hd hc ht
    have hct : truthy cfg.comment = true := by
      rw [hc]; simpa [truthy] using ht
    show (textFold ls (textStep cfg d l)).1.comment = _
    rw [textStep_of_desc_truthy cfg d l hd, if_neg (by rw [hct]; simp)]
    rw [hc]
    show (textFold ls ({ cfg with comment := some (commentJoin t l) }, d)).1.comment = _
    rw [ih _ d (commentJoin t l) (by simpa using hd) rfl (commentJoin_ne_nil t l)]
    rfl

lemma textFold_comment_region (ls : List PyStr) :
    ∀ (cfg : PropertyConfig) (d : PyStr),
      truthy cfg.description = true → cfg.comment = none →
    (textFold ls (cfg, d)).1.comment = commentOfLines ls := by
  induction ls with
  | nil => intro cfg d _ hc; simpa [commentOfLines] using hc
  | cons l ls ih =>
    intro cfg d hd hc
    have hcf : truthy cfg.comment = false := by rw [hc]; rfl
    show (textFold ls (textStep cfg d l)).1.comment = _
    rw [textStep_of_desc_truthy cfg d l hd, if_pos hcf]
    by_cases hl : l.isEmpty
    · rw [if_pos hl, ih cfg d hd hc]
      unfold commentOfLines
      rw [List.dropWhile_cons_of_pos hl]
    · rw [if_neg hl]
      rw [textFold_comment_acc ls _ d l (by simpa using hd) rfl (by simpa using hl)]
      unfold commentOfLines
      rw [List.dropWhile_cons_of_neg (by simpa using hl)]

/- Emitter lemmas. -/

lemma appendLines_pos (ls : List PyStr) :
    ∀ (k : Nat) (content : PyStr),
      appendLines (k + 1) content ls =
        content ++ (ls.map (fun x => '\n' :: x)).flatten := by
  induction ls with
  | nil => intro k content; simp [appendLines]
  | cons l ls ih =>
    intro k content
    show appendLines (k + 1 + 1) (content ++ (if k + 1 = 0 then [] else ['\n']) ++ l) ls = _
    rw [if_neg (Nat.succ_ne_zero k), ih (k + 1)]
    simp

lemma appendLines_zero (content : PyStr) (ls : List PyStr) :
    appendLines 0 content ls = content ++ joinLines ls := by
  cases ls with
  | nil => simp [appendLines, joinLines]
  | cons l ls =>
    show appendLines 1 (content ++ (if (0 : Nat) = 0 then [] else ['\n']) ++ l) ls = _
    rw [if_pos rfl, appendLines_pos ls 0]
    simp [joinLines]

lemma joinLines_cons_cons (l m : PyStr) (ms : List PyStr) :
    joinLines (l :: m :: ms) = l ++ '\n' :: joinLines (m :: ms) := by
  simp [joinLines]

lemma joinLines_ends (u2 : PyStr) :
    ∀ (ls : List PyStr), ls ≠ [] → (∀ l ∈ ls, ∃ u, l = u ++ u2) →
      ∃ w, joinLines ls = w ++ u2 := by
  intro ls
  induction ls with
  | nil => intro hne _; exact absurd rfl hne
  | cons l ls ih =>
    intro _ h
    cases ls with
    | nil =>
      obtain ⟨u, hu⟩ := h l (by simp)
      exact ⟨u, by simp [joinLines, hu]⟩
    | cons m ms =>
      obtain ⟨w, hw⟩ := ih (by simp) (fun x hx => h x (List.mem_cons_of_mem l hx))
      refine ⟨l ++ '\n' :: w, ?_⟩
      rw [joinLines_cons_cons, hw]
      simp

lemma lineFor_java (n a : PyStr) :
    lineFor false n a =
      (TAB ++ TAB ++ ("Map.entry(VehicleProperty.".data) ++ n ++ (", ".data) ++
        a ++ [')']) ++ [','] := by
  show TAB ++ TAB ++ ("Map.entry(VehicleProperty.".data) ++ n ++ (", ".data) ++
    a ++ ("),".data) = _
  simp only [List.append_assoc]
  rfl

lemma lineFor_cpp (n a : PyStr) :
    lineFor true n a =
      (TAB ++ TAB ++ ("\x7bVehicleProperty::".data) ++ n ++ (", ".data) ++
        a ++ ['\x7d']) ++ [','] := by
  show TAB ++ TAB ++ ("\x7bVehicleProperty::".data) ++ n ++ (", ".data) ++
    a ++ ("\x7d,".data) = _
  simp only [List.append_assoc]
  rfl

lemma lineFor_comma (cpp : Bool) (n a : PyStr) : ∃ t, lineFor cpp n a = t ++ [','] := by
  cases cpp
  · exact ⟨_, lineFor_java n a⟩
  · exact ⟨_, lineFor_cpp n a⟩

lemma lineFor_java_close (n a : PyStr) : ∃ u, lineFor false n a = u ++ [')', ','] := by
  refine ⟨TAB ++ TAB ++ ("Map.entry(VehicleProperty.".data) ++ n ++ (", ".data) ++ a, ?_⟩
  rw [lineFor_java, List.append_assoc, List.append_assoc]
  simp

/- Under a supported field/style combination and well-formed records, the
   convert loop succeeds and builds exactly the lines of linesOf. -/
lemma convertLoop_ok (cpp : Bool) (field : PyStr) (hsup : supportedField field cpp) :
    ∀ (cs : List PropertyConfig), (∀ c ∈ cs, wfConfig c) →
    ∀ (counter : Nat) (content : PyStr) (annot : Option PyVal),
    convertLoop cpp field cs counter content annot =
      Except.ok (appendLines counter content (linesOf cpp field cs)) := by
  intro cs
  induction cs with
  | nil => intro _ counter content annot; rfl
  | cons c cs ih =>
    intro hwf counter content annot
    obtain ⟨hname, hcm, hacc, hver⟩ := hwf c (List.mem_cons_self c cs)
    have hwfs : ∀ x ∈ cs, wfConfig x := fun x hx => hwf x (List.mem_cons_of_mem c hx)
    obtain ⟨n, hn⟩ := Option.isSome_iff_exists.mp hname
    rcases hsup with hf | hf | ⟨hf, hcpp⟩ | ⟨hf, hcpp⟩ | ⟨hf, hcpp⟩
    · subst hf
      obtain ⟨s, hs⟩ := Option.isSome_iff_exists.mp hcm
      have hAA : annotAfter cpp cmFieldLit c annot =
          Except.ok (some (some (some ((if cpp then cmCpp else cmJava) ++ s)))) := by
        unfold annotAfter
        rw [if_pos rfl, hs]
      have hAV : annotValue cpp cmFieldLit c =
          some ((if cpp then cmCpp else cmJava) ++ s) := by
        unfold annotValue
        rw [if_pos rfl, hs]
        rfl
      have hline : linesOf cpp cmFieldLit (c :: cs) =
          lineFor cpp n ((if cpp then cmCpp else cmJava) ++ s) ::
            linesOf cpp cmFieldLit cs := by
        simp [linesOf, List.filterMap_cons, hAV, hn]
      simp only [convertLoop, hAA, hn]
      rw [ih hwfs, hline]
      rfl
    · subst hf
      rcases hma : c.access_modes with _ | ⟨a, rest⟩
      · exact absurd hma hacc
      · have hAA : annotAfter cpp accFieldLit c annot =
            Except.ok (some (some (some ((if cpp then accCpp else accJava) ++ a)))) := by
          unfold annotAfter
          rw [if_neg (by decide), if_pos rfl, hma]
        have hAV : annotValue cpp accFieldLit c =
            some ((if cpp then accCpp else accJava) ++ a) := by
          unfold annotValue
          rw [if_neg (by decide), if_pos rfl, hma]
          rfl
        have hline : linesOf cpp accFieldLit (c :: cs) =
            lineFor cpp n ((if cpp then accCpp else accJava) ++ a) ::
              linesOf cpp accFieldLit cs := by
          simp [linesOf, List.filterMap_cons, hAV, hn]
        simp only [convertLoop, hAA, hn]
        rw [ih hwfs, hline]
        rfl
    · subst hf
      subst hcpp
      by_cases het : c.enum_types = []
      · have hAA : annotAfter false etFieldLit c annot = Except.ok none := by
          unfold annotAfter
          rw [if_neg (by decide), if_neg (by decide), if_pos rfl]
          rw [if_pos (by simp [het])]
        have hAV : annotValue false etFieldLit c = none := by
          unfold annotValue
          rw [if_neg (by decide), if_neg (by decide), if_pos rfl, if_pos het]
        have hline : linesOf false etFieldLit (c :: cs) = linesOf false etFieldLit cs := by
          simp [linesOf, List.filterMap_cons, hAV]
        simp only [convertLoop, hAA]
        rw [ih hwfs, hline]
      · have hAA : annotAfter false etFieldLit c annot =
            Except.ok (some (some (some (listOfExpr c.enum_types)))) := by
          unfold annotAfter
          rw [if_neg (by decide), if_neg (by decide), if_pos rfl]
          rw [if_neg (by simp [Nat.lt_one_iff, List.length_eq_zero, het])]
          simp
        have hAV : annotValue false etFieldLit c = some (listOfExpr c.enum_types) := by
          unfold annotValue
          rw [if_neg (by decide), if_neg (by decide), if_pos rfl, if_neg het]
        have hline : linesOf false etFieldLit (c :: cs) =
            lineFor false n (listOfExpr c.enum_types) :: linesOf false etFieldLit cs := by
          simp [linesOf, List.filterMap_cons, hAV, hn]
        simp only [convertLoop, hAA, hn]
        rw [ih hwfs, hline]
        rfl
    · subst hf
      subst hcpp
      by_cases hut : truthy c.unit_type = false
      · have hAA : annotAfter false utFieldLit c annot = Except.ok none := by
          unfold annotAfter
          rw [if_neg (by decide), if_neg (by decide), if_neg (by decide), if_pos rfl]
          rw [if_pos hut]
        have hAV : annotValue false utFieldLit c = none := by
          unfold annotValue
          rw [if_neg (by decide), if_neg (by decide), if_neg (by decide), if_pos rfl]
          rw [if_pos hut]
        have hline : linesOf false utFieldLit (c :: cs) = linesOf false utFieldLit cs := by
          simp [linesOf, List.filterMap_cons, hAV]
        simp only [convertLoop, hAA]
        rw [ih hwfs, hline]
      · cases hu : c.unit_type with
        | none => rw [hu] at hut; exact absurd rfl hut
        | some u =>
          have hAA : annotAfter false utFieldLit c annot =
              Except.ok (some (some (some u))) := by
            unfold annotAfter
            rw [if_neg (by decide), if_neg (by decide), if_neg (by decide), if_pos rfl]
            rw [if_neg hut]
            simp [hu]
          have hAV : annotValue false utFieldLit c = some u := by
            unfold annotValue
            rw [if_neg (by decide), if_neg (by decide), if_neg (by decide), if_pos rfl]
            rw [if_neg hut, hu]
            rfl
          have hline : linesOf false utFieldLit (c :: cs) =
              lineFor false n u :: linesOf false utFieldLit cs := by
            simp [linesOf, List.filterMap_cons, hAV, hn]
          simp only [convertLoop, hAA, hn]
          rw [ih hwfs, hline]
          rfl
    · subst hf
      subst hcpp
      obtain ⟨v, hv⟩ := Option.isSome_iff_exists.mp hver
      have hAA : annotAfter true verFieldLit c annot =
          Except.ok (some (some (some v))) := by
        unfold annotAfter
        rw [if_neg (by decide), if_neg (by decide), if_neg (by decide), if_neg (by decide)]
        rw [if_pos rfl]
        simp [hv]
      have hAV : annotValue true verFieldLit c = some v := by
        unfold annotValue
        rw [if_neg (by decide), if_neg (by decide), if_neg (by decide), if_neg (by decide)]
        rw [hv]
        rfl
      have hline : linesOf true verFieldLit (c :: cs) =
          lineFor true n v :: linesOf true verFieldLit cs := by
        simp [linesOf, List.filterMap_cons, hAV, hn]
      simp only [convertLoop, hAA, hn]
      rw [ih hwfs, hline]
      rfl

/- Quote escaping: the source's replace('"', '""') equals doubling each
   double-quote character. -/
lemma pyReplaceFuel_quote (s : PyStr) : ∀ (fuel : Nat), s.length ≤ fuel →
    pyReplaceFuel dq ddq fuel s = escQuote s := by
  induction s with
  | nil => intro fuel _; cases fuel <;> rfl
  | cons c cs ih =>
    intro fuel hf
    cases fuel with
    | zero => simp at hf
    | succ f =>
      have hrec := ih f (by simpa using Nat.lt_succ_iff.mp (Nat.lt_of_lt_of_le
        (Nat.lt_succ_of_le (Nat.le_refl cs.length)) hf))
      by_cases hc : c = '"'
      · subst hc
        show (if dq ≠ [] ∧ dq.isPrefixOf ('"' :: cs) then
            ddq ++ pyReplaceFuel dq ddq f (List.drop dq.length ('"' :: cs))
          else '"' :: pyReplaceFuel dq ddq f cs) = escQuote ('"' :: cs)
        rw [if_pos ⟨by decide, by simp [dq, List.isPrefixOf]⟩]
        show ddq ++ pyReplaceFuel dq ddq f cs = escQuote ('"' :: cs)
        rw [hrec]
        simp [escQuote, ddq]
      · show (if dq ≠ [] ∧ dq.isPrefixOf (c :: cs) then
            ddq ++ pyReplaceFuel dq ddq f (List.drop dq.length (c :: cs))
          else c :: pyReplaceFuel dq ddq f cs) = escQuote (c :: cs)
        rw [if_neg (by simp [dq, List.isPrefixOf]; intro h; exact absurd h.symm hc)]
        rw [hrec]
        simp [escQuote, hc]

lemma pyReplace_quote (s : PyStr) : pyReplace dq ddq s = escQuote s :=
  pyReplaceFuel_quote s s.length (Nat.le_refl _)

/- Each CSV row with a set description renders as the amended row spec. -/
lemma csvRow_spec (c : PropertyConfig) (h : c.description.isSome) :
    csvRow c = Except.ok (csvRowSpec c) := by
  obtain ⟨d, hd⟩ := Option.isSome_iff_exists.mp h
  unfold csvRow csvRowSpec
  rw [hd]
  simp [pyReplace_quote]

lemma csvLoop_ok (cs : List PropertyConfig) (h : ∀ c ∈ cs, c.description.isSome) :
    ∀ (content : PyStr),
      csvLoop cs content = Except.ok (content ++ (cs.map csvRowSpec).flatten) := by
  induction cs with
  | nil => intro content; simp [csvLoop]
  | cons c cs ih =>
    intro content
    show (match csvRow c with
      | Except.error e => Except.error e
      | Except.ok r => csvLoop cs (content ++ r)) = _
    rw [csvRow_spec c (h c (List.mem_cons_self c cs))]
    show csvLoop cs (content ++ csvRowSpec c) = _
    rw [ih (fun x hx => h x (List.mem_cons_of_mem c hx)) (content ++ csvRowSpec c)]
    simp

/- The access-mode dispatch of convert reads only the head of access_modes. -/
lemma annotAfter_acc_trunc (cpp : Bool) (c : PropertyConfig) (annot : Option PyVal) :
    annotAfter cpp accFieldLit (truncAccess c) annot = annotAfter cpp accFieldLit c annot := by
  rcases c with ⟨nm, de, co, cm, am, et, ut, ve⟩
  cases am with
  | nil => rfl
  | cons a rest => rfl

lemma truncAccess_name (c : PropertyConfig) : (truncAccess c).name = c.name := rfl

lemma convertLoop_acc_trunc (cpp : Bool) :
    ∀ (cs : List PropertyConfig) (counter : Nat) (content : PyStr)
      (annot : Option PyVal),
    convertLoop cpp accFieldLit (cs.map truncAccess) counter content annot =
      convertLoop cpp accFieldLit cs counter content annot := by
  intro cs
  induction cs with
  | nil => intro counter content annot; rfl
  | cons c cs ih =>
    intro counter content annot
    simp only [List.map_cons, convertLoop]
    rw [annotAfter_acc_trunc, truncAccess_name]
    cases annotAfter cpp accFieldLit c annot with
    | error e => rfl
    | ok o =>
      cases o with
      | none => exact ih counter content annot
      | some a2 =>
        cases c.name with
        | none => rfl
        | some n =>
          cases a2 with
          | none => rfl
          | some av =>
            cases av with
            | none => rfl
            | some a => exact ih (counter + 1) _ (some (some a))

/-- Claim C1: for every input file, every PropertyRecord appended to the
    parser's output list has a non-null name, a non-null changeMode, a
    non-empty accessModes list, and a non-null version; and whenever an
    enum-value declaration line would finalize a record violating this, the
    parse aborts with an error, so the run produces no output. -/
theorem c1_records_mandatory_fields :
    (∀ (lines : List PyStr) (cfgs : List PropertyConfig),
      parseFile lines = Except.ok cfgs →
      ∀ c ∈ cfgs, c.name ≠ none ∧ c.change_mode ≠ none ∧
        c.access_modes ≠ [] ∧ c.version ≠ none) ∧
    (∀ (st : PState) (line w : PyStr) (cfg : PropertyConfig),
      st.processing = true → st.in_comment = false →
      reEnumStart line = false → reEnumEnd line = false →
      reCommentBegin line = false → reCommentEnd line = false →
      reValue line = some w → ¬ w = invalidName → st.config = some cfg →
      (truthy cfg.change_mode = false ∨ cfg.access_modes = [] ∨
        truthy cfg.version = false) →
      ∃ e, parseLine st line = Except.error e) := by
  constructor
  · intro lines cfgs h
    unfold parseFile at h
    cases hrun : runLines initState lines with
    | error e => rw [hrun] at h; cases h
    | ok st =>
      rw [hrun] at h
      injection h with h
      rw [← h]
      refine runLines_inv (fun c => c.name ≠ none ∧ c.change_mode ≠ none ∧
        c.access_modes ≠ [] ∧ c.version ≠ none) ?_ lines initState st hrun ?_
      · intro cfg w h1 h2 h3 _
        refine ⟨by simp, ?_, ?_, ?_⟩
        · show cfg.change_mode ≠ none
          intro hn; rw [hn] at h1; simp [truthy] at h1
        · show cfg.access_modes ≠ []
          exact h2
        · show cfg.version ≠ none
          intro hn; rw [hn] at h3; simp [truthy] at h3
      · intro c hc; simp [initState] at hc
  · intro st line w cfg hp hc h1 h2 h3 h4 hv hw hcfg hmiss
    obtain ⟨e, he, _⟩ := declLineStep_missing st line w cfg hv hw hcfg hmiss
    exact ⟨e, by rw [parseLine_decl_path st line hp hc h1 h2 h3 h4]; exact he⟩

/-- Claim C1 witness: the example file yields exactly the example record, and
    the invariant holds for it. -/
theorem c1_witness :
    parseFile demoGood = Except.ok [fooCfg] ∧
    (fooCfg.name ≠ none ∧ fooCfg.change_mode ≠ none ∧ fooCfg.access_modes ≠ [] ∧
      fooCfg.version ≠ none) :=
  ⟨rfl, c1_records_mandatory_fields.1 demoGood [fooCfg] rfl fooCfg
    (List.mem_singleton_self fooCfg)⟩

/-- Claim C2: an enum-value declaration line reached with a missing
    change-mode, access, or version annotation makes the whole parse fail with
    an error that carries that entry's name, so the entry appears in no output
    record sequence. -/
theorem c2_missing_field_fatal (pre suf : List PyStr) (line : PyStr)
    (st : PState) (cfg : PropertyConfig) (w : PyStr)
    (hrun : runLines initState pre = Except.ok st)
    (hp : st.processing = true) (hc : st.in_comment = false)
    (h1 : reEnumStart line = false) (h2 : reEnumEnd line = false)
    (h3 : reCommentBegin line = false) (h4 : reCommentEnd line = false)
    (hv : reValue line = some w) (hw : ¬ w = invalidName)
    (hcfg : st.config = some cfg)
    (hmiss : truthy cfg.change_mode = false ∨ cfg.access_modes = [] ∨
      truthy cfg.version = false) :
    ∃ e, parseFile (pre ++ line :: suf) = Except.error e ∧ errName e = some w := by
  obtain ⟨e, he, hn⟩ := declLineStep_missing st line w cfg hv hw hcfg hmiss
  refine ⟨e, ?_, hn⟩
  unfold parseFile
  rw [runLines_append pre initState (line :: suf), hrun]
  show (match runLines st (line :: suf) with
    | Except.error e => Except.error e
    | Except.ok st2 => Except.ok st2.configs) = _
  unfold runLines
  rw [parseLine_decl_path st line hp hc h1 h2 h3 h4, he]

/-- Claim C2 witness: a property FOO with only an @access annotation aborts
    the parse with an error naming FOO. -/
theorem c2_witness :
    runLines initState pre2 = Except.ok st2demo ∧
    (∃ e, parseFile (pre2 ++ line2 :: []) = Except.error e ∧
      errName e = some ("FOO".data)) :=
  ⟨rfl, c2_missing_field_fatal pre2 [] line2 st2demo accOnlyCfg ("FOO".data)
    rfl rfl rfl rfl rfl rfl rfl rfl (by decide) rfl (Or.inl rfl)⟩

/-- Claim C3 (code bug): a duplicate @version annotation aborts the parse at
    the second annotation line, before the next entry, but the error does not
    name the offending entry: for the first property the local prop_name is
    still unbound (an UnboundLocalError with no property name at all), and for
    a later property the message carries the name of the previously declared
    property (here FOO), not the entry whose comment holds the duplicate. -/
theorem c3_duplicate_version_stale_name :
    parseFile demoDupFirst = Except.error PyErr.unboundLocal ∧
    parseFile demoDupSecond = Except.error (PyErr.dupVersion ("FOO".data)) ∧
    errName PyErr.unboundLocal = none :=
  ⟨rfl, rfl, rfl⟩

/-- Claim C7 counterexample: after the INVALID declaration line the current
    record construction is not discarded — the state still carries the comment
    record (config = some invCfg), and the following declaration line FOO
    finalizes that same construction, so the parse returns a FOO record with
    the annotations of the comment that preceded INVALID. -/
theorem c7_counterexample :
    runLines initState preInv = Except.ok stAfterInv ∧
    stAfterInv.config = some invCfg ∧
    parseFile demoInvalidReuse =
      Except.ok [{ invCfg with name := some ("FOO".data) }] :=
  ⟨rfl, rfl, rfl⟩

/-- Claim C7 amended: an enum-value declaration line whose identifier is
    INVALID produces no record — no record named INVALID ever appears in the
    output — but the current record construction is retained, not discarded:
    the step only records INVALID in the prop_name local and leaves the rest
    of the state (including the construction) unchanged. -/
theorem c7_amended_invalid_retained :
    (∀ (lines : List PyStr) (cfgs : List PropertyConfig),
      parseFile lines = Except.ok cfgs → ∀ c ∈ cfgs, c.name ≠ some invalidName) ∧
    (∀ (st : PState) (line : PyStr),
      st.processing = true → st.in_comment = false →
      reEnumStart line = false → reEnumEnd line = false →
      reCommentBegin line = false → reCommentEnd line = false →
      reValue line = some invalidName →
      parseLine st line = Except.ok { st with prop_name := some invalidName }) := by
  constructor
  · intro lines cfgs h
    unfold parseFile at h
    cases hrun : runLines initState lines with
    | error e => rw [hrun] at h; cases h
    | ok st =>
      rw [hrun] at h
      injection h with h
      rw [← h]
      refine runLines_inv (fun c => c.name ≠ some invalidName) ?_ lines initState st hrun ?_
      · intro cfg w _ _ _ h4
        show some w ≠ some invalidName
        intro hcon
        exact h4 (Option.some.inj hcon)
      · intro c hc; simp [initState] at hc
  · intro st line hp hc h1 h2 h3 h4 hv
    rw [parseLine_decl_path st line hp hc h1 h2 h3 h4]
    exact declLineStep_invalid st line hv

/-- Claim C7 witness: the INVALID line leaves the state unchanged except for
    prop_name, and the good file's record is not named INVALID. -/
theorem c7_witness :
    (parseFile demoGood = Except.ok [fooCfg] ∧ fooCfg.name ≠ some invalidName) ∧
    parseLine st2demo lineInv =
      Except.ok { st2demo with prop_name := some invalidName } :=
  ⟨⟨rfl, c7_amended_invalid_retained.1 demoGood [fooCfg] rfl fooCfg
      (List.mem_singleton_self fooCfg)⟩,
   c7_amended_invalid_retained.2 st2demo lineInv rfl rfl rfl rfl rfl rfl rfl⟩

/-- Claim C5 counterexample: in a doc comment whose text is preceded by a
    blank comment line, the parsed description is the paragraph after the
    blank line ("A"), not the text preceding the first blank comment line
    (which is empty): an empty accumulated description does not stop the
    accumulation, because the empty string is falsy. -/
theorem c5_counterexample :
    parseFile demoC5 = Except.ok [c5Cfg] ∧
    c5Cfg.description = some ("A".data) ∧
    descOfLinesLiteral [[], ("A".data), []] = some [] ∧
    c5Cfg.description ≠ descOfLinesLiteral [[], ("A".data), []] :=
  ⟨rfl, rfl, rfl, by decide⟩

/-- Claim C5 amended: over the stripped free-text lines of a doc comment, the
    description equals the non-blank lines that follow the leading blank
    lines, concatenated with single spaces (no leading space on the first
    fragment), finalized by the first blank line that is preceded by at least
    one non-blank line; when no such blank line occurs the description is
    never finalized — it stays null, or becomes the empty string when some
    blank line was seen. -/
theorem c5_amended_description (ls : List PyStr) :
    (textFold ls (initConfig, [])).1.description = descOfLines ls :=
  textFold_desc_start ls initConfig rfl

/-- Claim C6 counterexample: a blank comment line at the start of the comment
    region (after the description is finalized) is dropped, not converted to a
    newline: the region [blank, "X"] yields the comment "X", while converting
    every blank line to a newline would yield a string containing a newline. -/
theorem c6_counterexample :
    (textFold demoC6 (initConfig, [])).1.comment = some ("X".data) ∧
    commentOfLinesLiteral [[], ("X".data)] = ("\n X".data) ∧
    (textFold demoC6 (initConfig, [])).1.comment ≠
      some (commentOfLinesLiteral [[], ("X".data)]) :=
  ⟨rfl, rfl, by decide⟩

/-- Claim C6 amended: in the free-text region after the description is
    finalized, blank lines before the first non-blank comment line are
    dropped; from the first non-blank line on, each further non-blank line is
    appended with a single space separator and each blank line appends an
    explicit newline, so interior blank lines are preserved as paragraph
    breaks. -/
theorem c6_amended_comment (ls : List PyStr) (cfg : PropertyConfig) (d : PyStr)
    (hd : truthy cfg.description = true) (hc : cfg.comment = none) :
    (textFold ls (cfg, d)).1.comment = commentOfLines ls :=
  textFold_comment_region ls cfg d hd hc

/-- Claim C6 witness: a region with an interior blank line keeps the paragraph
    break. -/
theorem c6_witness :
    truthy descOnlyCfg.description = true ∧ descOnlyCfg.comment = none ∧
    (textFold [("a".data), [], ("b".data)] (descOnlyCfg, [])).1.comment =
      commentOfLines [("a".data), [], ("b".data)] :=
  ⟨rfl, rfl, c6_amended_comment [("a".data), [], ("b".data)] descOnlyCfg [] rfl rfl⟩

lemma linesOf_mem (cpp : Bool) (field : PyStr) (cs : List PropertyConfig)
    (l : PyStr) (hl : l ∈ linesOf cpp field cs) :
    ∃ n a, l = lineFor cpp n a := by
  unfold linesOf at hl
  rcases List.mem_filterMap.mp hl with ⟨c, _, hmap⟩
  rcases Option.map_eq_some'.mp hmap with ⟨a, _, hfa⟩
  exact ⟨c.name.getD [], a, hfa.symm⟩

/-- Claim C4 amended: for every record sequence whose records carry the
    mandatory fields and every supported field/style combination (change-mode
    and access-mode in both styles, enum-types and unit-type in the Java
    style, version in the C++ style): every emitted line ends with the comma
    separator; in the C++ (array-literal) style the output is license preamble
    plus header plus the newline-joined lines — each still comma-terminated —
    plus footer; in the Java (call-chain) style, when at least one line is
    emitted, the final comma is removed, so the body ends in ')' and the
    output is license plus header plus that body plus footer; when no line is
    emitted in the Java style, the final character of license-plus-header is
    removed instead, so the output is not license plus header plus footer. -/
theorem c4_amended_emitter (cs : List PropertyConfig) (header footer : PyStr)
    (cpp : Bool) (field : PyStr) (hsup : supportedField field cpp)
    (hwf : ∀ c ∈ cs, wfConfig c) :
    (∀ l ∈ linesOf cpp field cs, ∃ t, l = t ++ [',']) ∧
    (cpp = true → FileParser.convert ⟨cs⟩ header footer cpp field =
      Except.ok (LICENSE ++ header ++ joinLines (linesOf cpp field cs) ++ footer)) ∧
    (cpp = false → linesOf cpp field cs = [] →
      FileParser.convert ⟨cs⟩ header footer cpp field =
        Except.ok ((LICENSE ++ header).dropLast ++ footer)) ∧
    (cpp = false → linesOf cpp field cs ≠ [] →
      ∃ body, joinLines (linesOf cpp field cs) = body ++ [','] ∧
        body.getLast? = some ')' ∧
        FileParser.convert ⟨cs⟩ header footer cpp field =
          Except.ok (LICENSE ++ header ++ body ++ footer)) := by
  have hcontent : convertLoop cpp field cs 0 (LICENSE ++ header) none =
      Except.ok ((LICENSE ++ header) ++ joinLines (linesOf cpp field cs)) := by
    rw [convertLoop_ok cpp field hsup cs hwf 0 (LICENSE ++ header) none,
      appendLines_zero]
  refine ⟨?_, ?_, ?_, ?_⟩
  · intro l hl
    obtain ⟨n, a, rfl⟩ := linesOf_mem cpp field cs l hl
    exact lineFor_comma cpp n a
  · intro hcpp
    subst hcpp
    unfold FileParser.convert
    rw [hcontent]
    simp [List.append_assoc]
  · intro hcpp hnil
    subst hcpp
    unfold FileParser.convert
    rw [hcontent, hnil]
    simp [joinLines]
  · intro hcpp hne
    subst hcpp
    have hcomma : ∀ l ∈ linesOf false field cs, ∃ u, l = u ++ [')', ','] := by
      intro l hl
      obtain ⟨n, a, rfl⟩ := linesOf_mem false field cs l hl
      exact lineFor_java_close n a
    obtain ⟨w, hw⟩ := joinLines_ends [')', ','] (linesOf false field cs) hne hcomma
    have hX : (LICENSE ++ header) ++ joinLines (linesOf false field cs) =
        ((LICENSE ++ header) ++ (w ++ [')'])) ++ [','] := by
      rw [hw]
      simp [List.append_assoc]
    refine ⟨w ++ [')'], ?_, List.getLast?_concat _, ?_⟩
    · rw [hw]
      simp [List.append_assoc]
    · unfold FileParser.convert
      rw [hcontent]
      show Except.ok (((LICENSE ++ header) ++
        joinLines (linesOf false field cs)).dropLast ++ footer) = _
      rw [hX, List.dropLast_concat]

/-- Claim C4 counterexample: in the Java style with no emitted line, the
    output is not license plus header plus lines plus footer — content[:-1]
    instead removes the final character of the header. -/
theorem c4_counterexample :
    FileParser.convert ⟨[]⟩ ("HEADER\n".data) ("FOOTER".data) false cmFieldLit =
      Except.ok ((LICENSE ++ ("HEADER\n".data)).dropLast ++ ("FOOTER".data)) ∧
    (LICENSE ++ ("HEADER\n".data)).dropLast ++ ("FOOTER".data) ≠
      LICENSE ++ ("HEADER\n".data) ++ joinLines (linesOf false cmFieldLit []) ++
        ("FOOTER".data) :=
  ⟨rfl, by decide⟩

/-- Claim C4 witness: the C++ change-mode artifact for the example record. -/
theorem c4_witness :
    supportedField cmFieldLit true ∧ (∀ c ∈ [fooCfg], wfConfig c) ∧
    (∀ l ∈ linesOf true cmFieldLit [fooCfg], ∃ t, l = t ++ [',']) ∧
    FileParser.convert ⟨[fooCfg]⟩ ("H".data) ("F".data) true cmFieldLit =
      Except.ok (LICENSE ++ ("H".data) ++
        joinLines (linesOf true cmFieldLit [fooCfg]) ++ ("F".data)) := by
  have h := c4_amended_emitter [fooCfg] ("H".data) ("F".data) true cmFieldLit
    (Or.inl rfl) (by decide)
  exact ⟨Or.inl rfl, by decide, h.1, h.2.1 rfl⟩

/-- Claim C8 counterexample: only the description and comment fields are
    quote-escaped; a double quote inside the change-mode field is emitted
    verbatim, so the export differs from the all-fields-escaped rendering the
    claim describes. -/
theorem c8_counterexample :
    FileParser.outputAsCsv ⟨[quoteCfg]⟩ =
      Except.ok (csvHeader ++ ([quoteCfg].map csvRowSpec).flatten) ∧
    FileParser.outputAsCsv ⟨[quoteCfg]⟩ ≠
      Except.ok (csvHeader ++ ([quoteCfg].map csvRowSpecAll).flatten) :=
  ⟨rfl, by decide⟩

/-- Claim C8 amended: for every record sequence whose descriptions are set,
    the CSV export is one header row plus one row per record with fields name,
    escaped description, change mode, slash-joined access modes, slash-joined
    enum types (placeholder '/' when empty), unit type (placeholder '/' when
    absent), and escaped free-form comment; only the description and comment
    fields have their double quotes escaped by doubling. -/
theorem c8_amended_csv (cs : List PropertyConfig)
    (h : ∀ c ∈ cs, c.description.isSome) :
    FileParser.outputAsCsv ⟨cs⟩ = Except.ok (csvExportSpec cs) := by
  unfold FileParser.outputAsCsv csvExportSpec
  exact csvLoop_ok cs h csvHeader

/-- Claim C8 witness: the example record's CSV export. -/
theorem c8_witness :
    (∀ c ∈ [fooCfg], c.description.isSome) ∧
    FileParser.outputAsCsv ⟨[fooCfg]⟩ = Except.ok (csvExportSpec [fooCfg]) :=
  ⟨by decide, c8_amended_csv [fooCfg] (by decide)⟩

/-- Claim C9: the emitter is a deterministic function of the record sequence
    and its explicit inputs — two parser objects holding equal record lists
    produce byte-identical output for the same header, footer, style flag and
    field selector, so two runs on the same inputs agree. -/
theorem c9_deterministic (p1 p2 : FileParser) (header footer : PyStr)
    (cpp : Bool) (field : PyStr) (h : p1.configs = p2.configs) :
    p1.convert header footer cpp field = p2.convert header footer cpp field := by
  cases p1 with
  | mk c1 =>
    cases p2 with
    | mk c2 =>
      have h2 : c1 = c2 := h
      subst h2
      rfl

/-- Claim C9 witness. -/
theorem c9_witness :
    (FileParser.mk [fooCfg]).configs = (FileParser.mk [fooCfg]).configs ∧
    FileParser.convert ⟨[fooCfg]⟩ ("H".data) ("F".data) true cmFieldLit =
      FileParser.convert ⟨[fooCfg]⟩ ("H".data) ("F".data) true cmFieldLit :=
  ⟨rfl, c9_deterministic ⟨[fooCfg]⟩ ⟨[fooCfg]⟩ ("H".data) ("F".data) true
    cmFieldLit rfl⟩

/-- Claim C10: the generated access-mode artifacts embed only the first
    declared access mode — truncating every record's accessModes to its first
    element leaves the emitted artifact byte-identical, in both output styles
    — while the CSV export does change when the extra access modes are
    dropped, i.e. only the CSV export preserves them. -/
theorem c10_access_first_only :
    (∀ (cs : List PropertyConfig) (header footer : PyStr) (cpp : Bool),
      FileParser.convert ⟨cs.map truncAccess⟩ header footer cpp accFieldLit =
        FileParser.convert ⟨cs⟩ header footer cpp accFieldLit) ∧
    FileParser.outputAsCsv ⟨[c10Cfg]⟩ ≠
      FileParser.outputAsCsv ⟨[truncAccess c10Cfg]⟩ := by
  constructor
  · intro cs header footer cpp
    unfold FileParser.convert
    rw [convertLoop_acc_trunc]
  · decide
